import Mathlib

/-!
# Verification of the area severity aggregation engine

Shallow embedding of the severity / clustering / geo core of the
`weather-disaster-tracker` repository (`src/api/_lib/severity.ts`,
`src/api/_lib/types.ts`, `src/api/areas/severity.ts`), together with
proofs and refutations of the specification's claims about it.

Modelling conventions:
* JavaScript `number` values are modelled as exact rationals (`ℚ`) where the
  code only performs field arithmetic and comparisons, and as reals (`ℝ`)
  where transcendental functions (`Math.exp`, `Math.sin`, `Math.cos`,
  `Math.asin`, `Math.sqrt`, `Math.PI`) are involved.
* `Date` values are modelled by their `getTime()` millisecond value, a `ℚ`.
  Functions that call `new Date()` internally take the current time `now`
  as an explicit parameter.
* `undefined` / missing values are modelled with `Option`.
* A separate, minimal model with an explicit `NaN` value (`JSNum`) is used
  for the claims that concern non-finite coordinate values, since `ℚ`
  cannot represent `NaN`.
-/

namespace WeatherDisaster

/-- `AlertSeverity` from `src/api/_lib/types.ts`:
`'low' | 'medium' | 'high' | 'critical'`. -/
inductive AlertSeverity where
  | low
  | medium
  | high
  | critical
deriving DecidableEq, Repr

/-- The fields of `UserReport` (`src/api/_lib/types.ts`) that the severity
core reads.  `timestamp` is the `Date.getTime()` value in milliseconds;
`coordinates` is the optional `[lat, lng]` pair. -/
structure UserReport where
  severity : AlertSeverity
  timestamp : ℚ
  needsRescue : Bool := false
  coordinates : Option (ℚ × ℚ) := none
deriving DecidableEq, Repr

/-- `SEVERITY_WEIGHTS` lookup (`getSeverityWeight` in `severity.ts`):
`{critical: 4.0, high: 3.0, medium: 2.0, low: 1.0}`. -/
def getSeverityWeight : AlertSeverity → ℚ
  | .critical => 4
  | .high => 3
  | .medium => 2
  | .low => 1

/-- `ageHours` as computed in `severity.ts`:
`(now.getTime() - timestamp.getTime()) / (1000 * 60 * 60)`. -/
def ageHours (now timestamp : ℚ) : ℚ :=
  (now - timestamp) / (1000 * 60 * 60)

/-- `getRecencyWeight(timestamp, now)` from `severity.ts`:
`Math.exp(-ageHours / 24)`. -/
noncomputable def getRecencyWeight (timestamp now : ℚ) : ℝ :=
  Real.exp (-(ageHours now timestamp : ℝ) / 24)

/-- `calculateSeverityScore(reports, now)` from `severity.ts`:
`reports.reduce((sum, r) => sum + severityWeight * recencyWeight, 0)`. -/
noncomputable def calculateSeverityScore (reports : List UserReport) (now : ℚ) : ℝ :=
  reports.foldl
    (fun sum report =>
      sum + (getSeverityWeight report.severity : ℝ) * getRecencyWeight report.timestamp now)
    0

/-- The early-return loop at the top of `assignSeverityLevel` in
`severity.ts`: scan the reports in input order and return the severity of
the first report that is critical with age < 6h, high with age < 12h, or
medium with age < 24h (`TIME_THRESHOLDS`); `none` when no report matches. -/
def overrideSeverity (now : ℚ) : List UserReport → Option AlertSeverity
  | [] => none
  | r :: rs =>
    if r.severity = .critical ∧ ageHours now r.timestamp < 6 then some .critical
    else if r.severity = .high ∧ ageHours now r.timestamp < 12 then some .high
    else if r.severity = .medium ∧ ageHours now r.timestamp < 24 then some .medium
    else overrideSeverity now rs

/-- `assignSeverityLevel(score, reports, now)` from `severity.ts`: the
recency-override loop, then the `SEVERITY_THRESHOLDS` fallback
(`critical: 12, high: 6, medium: 3`). -/
noncomputable def assignSeverityLevel (score : ℝ) (reports : List UserReport) (now : ℚ) :
    AlertSeverity :=
  match overrideSeverity now reports with
  | some s => s
  | none =>
    if 12 ≤ score then .critical
    else if 6 ≤ score then .high
    else if 3 ≤ score then .medium
    else .low

/-- One report fires the recency override (the disjunction of the three
`if` conditions inside the loop of `assignSeverityLevel`). -/
def firesOverride (now : ℚ) (r : UserReport) : Prop :=
  (r.severity = .critical ∧ ageHours now r.timestamp < 6) ∨
  (r.severity = .high ∧ ageHours now r.timestamp < 12) ∨
  (r.severity = .medium ∧ ageHours now r.timestamp < 24)

instance (now : ℚ) (r : UserReport) : Decidable (firesOverride now r) := by
  unfold firesOverride; infer_instance

/-- `reportCounts` record of `AreaSeverityRanking` (`types.ts`). -/
structure ReportCounts where
  critical : ℕ
  high : ℕ
  medium : ℕ
  low : ℕ
deriving DecidableEq, Repr

/-- `countReportsBySeverity(reports)` from `severity.ts`: the loop
incrementing one counter per report. -/
def countReportsBySeverity (reports : List UserReport) : ReportCounts :=
  reports.foldl
    (fun counts report =>
      match report.severity with
      | .critical => { counts with critical := counts.critical + 1 }
      | .high => { counts with high := counts.high + 1 }
      | .medium => { counts with medium := counts.medium + 1 }
      | .low => { counts with low := counts.low + 1 })
    ⟨0, 0, 0, 0⟩

/-- `countNeedsRescue(reports)` from `severity.ts`:
`reduce((sum, r) => sum + (r.needsRescue ? 1 : 0), 0)`. -/
def countNeedsRescue (reports : List UserReport) : ℕ :=
  reports.foldl (fun sum report => sum + (if report.needsRescue then 1 else 0)) 0

/-- `getLatestTimestamp(reports)` from `severity.ts`: `new Date()` (the
current time) on the empty list, otherwise `reduce` with the head's
timestamp as the initial accumulator, keeping the larger timestamp. -/
def getLatestTimestamp (reports : List UserReport) (now : ℚ) : ℚ :=
  match reports with
  | [] => now
  | r0 :: _ =>
    reports.foldl
      (fun latest report => if latest < report.timestamp then report.timestamp else latest)
      r0.timestamp

/-- `calculateCentroid(reports)` from `severity.ts`: filter to reports with
a coordinate pair, fall back to the center of the Philippines
`[12.8797, 121.774]` when none remain, otherwise the arithmetic mean. -/
def calculateCentroid (reports : List UserReport) : ℚ × ℚ :=
  let validReports := reports.filter fun r => r.coordinates.isSome
  if validReports.isEmpty then (12.8797, 121.774)
  else
    let sums := validReports.foldl
      (fun s r =>
        match r.coordinates with
        | some c => (s.1 + c.1, s.2 + c.2)
        | none => s)
      ((0 : ℚ), (0 : ℚ))
    (sums.1 / validReports.length, sums.2 / validReports.length)

/-- `calculateBounds(reports)` from `severity.ts`: min/max over the valid
coordinates, `0.01`-degree padding on all four edges, and a closed
GeoJSON polygon ring of `[lng, lat]` pairs; `undefined` when no report has
coordinates. -/
def calculateBounds (reports : List UserReport) : Option (List (List (ℚ × ℚ))) :=
  let validReports := reports.filter fun r => r.coordinates.isSome
  if validReports.isEmpty then none
  else
    let box := validReports.foldl
      (fun b r =>
        match r.coordinates with
        | some c => (min b.1 c.1, max b.2.1 c.1, min b.2.2.1 c.2, max b.2.2.2 c.2)
        | none => b)
      ((90 : ℚ), (-90 : ℚ), (180 : ℚ), (-180 : ℚ))
    let minLat := box.1 - 0.01
    let maxLat := box.2.1 + 0.01
    let minLng := box.2.2.1 - 0.01
    let maxLng := box.2.2.2 + 0.01
    some [[(minLng, minLat), (maxLng, minLat), (maxLng, maxLat), (minLng, maxLat),
      (minLng, minLat)]]

/-- `toRad` helper from `severity.ts`: `(d * Math.PI) / 180`. -/
noncomputable def toRad (d : ℝ) : ℝ := d * Real.pi / 180

/-- `haversineMeters(a, b)` from `severity.ts` (both copies are textually
identical): haversine distance with Earth radius `6378137` m and the
`Math.asin(Math.min(1, Math.sqrt(s)))` clamp. -/
noncomputable def haversineMeters (a b : ℚ × ℚ) : ℝ :=
  let dLat := toRad ((b.1 : ℝ) - (a.1 : ℝ))
  let dLng := toRad ((b.2 : ℝ) - (a.2 : ℝ))
  let lat1 := toRad (a.1 : ℝ)
  let lat2 := toRad (b.1 : ℝ)
  let s := Real.sin (dLat / 2) ^ 2 + Real.cos lat1 * Real.cos lat2 * Real.sin (dLng / 2) ^ 2
  2 * 6378137 * Real.arcsin (min 1 (Real.sqrt s))

/-- The neighbourhood filter inside `calculateSeverityForLocation`:
reports with a coordinate pair within `radiusMeters` of `coords`. -/
noncomputable def nearbyReports (reports : List UserReport) (coords : ℚ × ℚ)
    (radiusMeters : ℝ) : List UserReport :=
  reports.filter fun report =>
    match report.coordinates with
    | none => false
    | some rc => decide (haversineMeters coords rc ≤ radiusMeters)

/-- `calculateSeverityForLocation(reports, coords, now, radiusMeters = 2500)`
from `severity.ts`. -/
noncomputable def calculateSeverityForLocation (reports : List UserReport)
    (coords : Option (ℚ × ℚ)) (now : ℚ) (radiusMeters : ℝ := 2500) : AlertSeverity :=
  match coords with
  | none => .low
  | some c =>
    let nearby := nearbyReports reports c radiusMeters
    if nearby.isEmpty then .low
    else assignSeverityLevel (calculateSeverityScore nearby now) nearby now

/-- `Number.prototype.toFixed(4)` on a finite value, as an exact rational:
round to the nearest multiple of `10⁻⁴`, the larger one on ties (the
ECMAScript `toFixed` tie rule picks the larger candidate). -/
def toFixed4 (q : ℚ) : ℚ := (⌊q * 10000 + 1 / 2⌋ : ℚ) / 10000

/-- The cluster label `` `Near ${lat.toFixed(4)}, ${lng.toFixed(4)}` ``
from `groupReportsByArea`, modelled by the pair of 4-decimal roundings the
string interpolates (the surrounding text carries no further data). -/
def clusterLabel (c : ℚ × ℚ) : ℚ × ℚ := (toFixed4 c.1, toFixed4 c.2)

/-- The `AreaGroup` interface of `severity.ts` (the `type: 'cluster'`
constant field is carried by the ranking below). -/
structure AreaGroup where
  identifier : ℚ × ℚ
  reports : List UserReport
  centroid : ℚ × ℚ
  sumLat : ℚ
  sumLng : ℚ

/-- The `groups.push({...})` branch of `groupReportsByArea`: a fresh
singleton cluster located at the report's coordinates. -/
def newGroup (r : UserReport) (c : ℚ × ℚ) : AreaGroup :=
  { identifier := clusterLabel c
    reports := [r]
    centroid := c
    sumLat := c.1
    sumLng := c.2 }

/-- The `matched` branch of `groupReportsByArea`: append the report, add
its coordinates to the running sums, recompute the centroid from the sums
and the member count, and relabel from the new centroid. -/
def addToGroup (g : AreaGroup) (r : UserReport) (c : ℚ × ℚ) : AreaGroup :=
  let reports := g.reports ++ [r]
  let sumLat := g.sumLat + c.1
  let sumLng := g.sumLng + c.2
  let centroid := (sumLat / reports.length, sumLng / reports.length)
  { identifier := clusterLabel centroid
    reports := reports
    centroid := centroid
    sumLat := sumLat
    sumLng := sumLng }

/-- One iteration of the outer loop of `groupReportsByArea` for a report
with coordinates `c`: scan the existing groups in creation order, update
the first group whose centroid is within `2500` m (`CLUSTER_RADIUS_M`),
and append a new singleton group when none matches. -/
noncomputable def insertReport (r : UserReport) (c : ℚ × ℚ) :
    List AreaGroup → List AreaGroup
  | [] => [newGroup r c]
  | g :: gs =>
    if haversineMeters c g.centroid ≤ 2500 then addToGroup g r c :: gs
    else g :: insertReport r c gs

/-- `groupReportsByArea(reports)` from `severity.ts`: process the reports
in arrival order, skipping reports without a coordinate pair. -/
noncomputable def groupReportsByArea (reports : List UserReport) : List AreaGroup :=
  reports.foldl
    (fun groups report =>
      match report.coordinates with
      | none => groups
      | some c => insertReport report c groups)
    []

/-- `Math.round(x)` for a finite value: the nearest integer, rounding
halves toward positive infinity. -/
noncomputable def jsRound (x : ℝ) : ℝ := (⌊x + 1 / 2⌋ : ℚ)

/-- `AreaSeverityRanking` from `types.ts`, restricted to the fields the
core computes (`areaType` is always the constant `'cluster'`). -/
structure AreaSeverityRanking where
  areaIdentifier : ℚ × ℚ
  areaType : String
  severity : AlertSeverity
  score : ℝ
  needsRescueCount : ℕ
  reportCounts : ReportCounts
  latestReportAt : ℚ
  bounds : Option (List (List (ℚ × ℚ)))
  coordinates : ℚ × ℚ

/-- The `groups.map(group => {...})` body of `calculateAreaSeverity`:
build one ranking per group, publishing the score rounded to two decimal
places (`Math.round(score * 100) / 100`). -/
noncomputable def mkRanking (now : ℚ) (g : AreaGroup) : AreaSeverityRanking :=
  let score := calculateSeverityScore g.reports now
  { areaIdentifier := g.identifier
    areaType := "cluster"
    severity := assignSeverityLevel score g.reports now
    score := jsRound (score * 100) / 100
    needsRescueCount := countNeedsRescue g.reports
    reportCounts := countReportsBySeverity g.reports
    latestReportAt := getLatestTimestamp g.reports now
    bounds := calculateBounds g.reports
    coordinates := calculateCentroid g.reports }

/-- The time-window filter of `calculateAreaSeverity`:
`cutoffTime = now - timeWindowHours * 60 * 60 * 1000` (milliseconds), keep
`r.timestamp >= cutoffTime`. -/
def recentReports (reports : List UserReport) (timeWindowHours now : ℚ) :
    List UserReport :=
  let cutoffTime := now - timeWindowHours * 60 * 60 * 1000
  reports.filter fun r => decide (cutoffTime ≤ r.timestamp)

/-- `calculateAreaSeverity(reports, timeWindowHours = 168)` from
`severity.ts`.  The source reads the current time with `new Date()`; it is
the explicit `now` parameter here, placed before `timeWindowHours` so that
the latter keeps its default argument.  The final
`rankings.sort((a, b) => b.score - a.score)` is an ECMAScript stable sort
under a consistent comparator, whose output is the unique stable
non-increasing order, modelled by `List.mergeSort`. -/
noncomputable def calculateAreaSeverity (reports : List UserReport) (now : ℚ)
    (timeWindowHours : ℚ := 168) : List AreaSeverityRanking :=
  let groups := groupReportsByArea (recentReports reports timeWindowHours now)
  let rankings := groups.map (mkRanking now)
  rankings.mergeSort fun a b => decide (b.score ≤ a.score)

/-!
## The `/api/areas/severity` handler (`src/api/areas/severity.ts`)

Only the deterministic computation around the database round-trip is
modelled: query-parameter parsing/clamping, the severity recomputation of
every fetched report, the ranking call, and the result limit.
-/

/-- ECMAScript `parseInt(s)` with no radix argument, on decimal inputs:
skip leading whitespace, an optional sign, then the longest prefix of
decimal digits; `NaN` — modelled as `none` — when that prefix is empty.
(The `0x`-prefix hexadecimal autodetection of `parseInt` is not modelled;
a hex input parses to a number in both readings and is clamped the same
way, so no claim depends on it.) -/
def parseIntJS (s : String) : Option Int :=
  let cs := s.toList.dropWhile fun c => c = ' ' ∨ c = '\t' ∨ c = '\n' ∨ c = '\r'
  let signAndRest : Int × List Char :=
    match cs with
    | '-' :: rest => (-1, rest)
    | '+' :: rest => (1, rest)
    | rest => (1, rest)
  let digits := signAndRest.2.takeWhile Char.isDigit
  if digits.isEmpty then none
  else some (signAndRest.1 * digits.foldl (fun n c => n * 10 + (c.toNat - '0'.toNat)) 0)

/-- `(raw as string) || dflt`: the default replaces an absent parameter
and, because the empty string is falsy, an empty one. -/
def jsOrDefault (raw : Option String) (dflt : String) : String :=
  match raw with
  | none => dflt
  | some s => if s = "" then dflt else s

/-- The `timeWindowHours` value after the handler's parsing and the two
clamp statements (`> 720 ↦ 720`, `< 1 ↦ 1`).  When `parseInt` returns `NaN`
(`none`), both comparisons are false and the value stays `NaN`. -/
def effectiveTimeWindowHours (raw : Option String) : Option Int :=
  match parseIntJS (jsOrDefault raw "168") with
  | none => none
  | some v =>
    let v1 := if 720 < v then 720 else v
    some (if v1 < 1 then 1 else v1)

/-- The `limit` value after the handler's parsing and the two clamp
statements (`> 100 ↦ 100`, `< 1 ↦ 1`), default `'50'`. -/
def effectiveLimit (raw : Option String) : Option Int :=
  match parseIntJS (jsOrDefault raw "50") with
  | none => none
  | some v =>
    let v1 := if 100 < v then 100 else v
    some (if v1 < 1 then 1 else v1)

/-- The handler's severity recomputation (lines 71–80): replace each
fetched report's stored severity by `calculateSeverityForLocation`
evaluated over the full fetched set at the report's own coordinates. -/
noncomputable def applyNeighborhoodSeverity (baseReports : List UserReport) (now : ℚ) :
    List UserReport :=
  baseReports.map fun report =>
    { report with severity := calculateSeverityForLocation baseReports report.coordinates now }

/-- The handler's ranking pipeline after the fetch: recompute severities,
rank, and apply the limit (`rankings.slice(0, query.limit)`). -/
noncomputable def handlerRankings (baseReports : List UserReport) (now : ℚ)
    (timeWindowHours : ℚ) (limit : ℕ) : List AreaSeverityRanking :=
  (calculateAreaSeverity (applyNeighborhoodSeverity baseReports now) now timeWindowHours).take
    limit

/-!
## A JavaScript-number model with `NaN`

`ℚ` cannot represent `NaN`, so the claims about non-finite coordinate
values use this minimal model of IEEE-754 doubles: a finite value or
`NaN`, with `NaN` absorbing through the arithmetic `calculateCentroid`
performs.  (Infinities also propagate through that arithmetic to a
non-finite result, so `nan` stands in for every non-finite input.)
-/

/-- A JavaScript number value: finite, or `NaN`. -/
inductive JSNum where
  | num (q : ℚ)
  | nan
deriving DecidableEq, Repr

/-- IEEE-754 addition restricted to this model: `NaN` absorbs. -/
def JSNum.add : JSNum → JSNum → JSNum
  | .num a, .num b => .num (a + b)
  | _, _ => .nan

/-- IEEE-754 division restricted to this model: `NaN` absorbs.  (The one
division `calculateCentroid` performs has a positive integer divisor, so
the `0/0` and `x/0` cases are unreachable there; they are mapped to `nan`
to keep the function total.) -/
def JSNum.div : JSNum → JSNum → JSNum
  | .num a, .num b => if b = 0 then .nan else .num (a / b)
  | _, _ => .nan

/-- A report as seen by the spatial functions in the `JSNum` model: only
the optional coordinate pair matters. -/
structure UserReportJs where
  coordinates : Option (JSNum × JSNum) := none
deriving DecidableEq, Repr

/-- `calculateCentroid` from `severity.ts` over `JSNum` coordinates,
line for line: the validity filter tests only that a coordinate pair is
present (`r.coordinates && r.coordinates.length === 2`) — it does not test
finiteness — then sums and divides by the count. -/
def calculateCentroidJs (reports : List UserReportJs) : JSNum × JSNum :=
  let validReports := reports.filter fun r => r.coordinates.isSome
  if validReports.isEmpty then (.num 12.8797, .num 121.774)
  else
    let sums := validReports.foldl
      (fun s r =>
        match r.coordinates with
        | some c => (s.1.add c.1, s.2.add c.2)
        | none => s)
      ((.num 0 : JSNum), (.num 0 : JSNum))
    (sums.1.div (.num validReports.length), sums.2.div (.num validReports.length))

/-!
## The clustering algorithm as the specification words it

Used as the comparison point for the refinement claim about
`groupReportsByArea`: a cluster keeps its members and a centroid, the
centroid of an updated cluster is recomputed as the arithmetic mean of the
members' coordinates (not from running sums), and the identifier is
derived from the current centroid.
-/

/-- A cluster as described by the spec: identifier, ordered members,
centroid. -/
structure SpecCluster where
  identifier : ℚ × ℚ
  reports : List UserReport
  centroid : ℚ × ℚ
deriving DecidableEq, Repr

/-- The arithmetic mean of the members' coordinate pairs ("the running
arithmetic mean of its members"). -/
def specCentroid (members : List UserReport) : ℚ × ℚ :=
  let cs := members.filterMap fun r => r.coordinates
  ((cs.map Prod.fst).sum / cs.length, (cs.map Prod.snd).sum / cs.length)

/-- Spec wording, one report: scan existing clusters in creation order;
append the report to the first cluster whose current centroid is within
2500 m haversine distance, update that cluster's centroid to the
arithmetic mean of its members and relabel from the new centroid; if no
cluster is within radius, create a new singleton cluster at the report's
coordinates. -/
noncomputable def specInsert (r : UserReport) (c : ℚ × ℚ) :
    List SpecCluster → List SpecCluster
  | [] => [⟨clusterLabel c, [r], c⟩]
  | g :: gs =>
    if haversineMeters c g.centroid ≤ 2500 then
      let members := g.reports ++ [r]
      let centroid := specCentroid members
      ⟨clusterLabel centroid, members, centroid⟩ :: gs
    else g :: specInsert r c gs

/-- Spec wording, whole pass: process reports in arrival order, skipping
reports without a valid coordinate pair. -/
noncomputable def specGroupReportsByArea (reports : List UserReport) : List SpecCluster :=
  reports.foldl
    (fun clusters report =>
      match report.coordinates with
      | none => clusters
      | some c => specInsert report c clusters)
    []

/-- The view of a source `AreaGroup` as a spec cluster (forget the running
sums). -/
def AreaGroup.toSpec (g : AreaGroup) : SpecCluster :=
  ⟨g.identifier, g.reports, g.centroid⟩

/-- The invariant `groupReportsByArea` maintains for every group it has
built: every member carries a coordinate pair, the running sums are the
sums of the members' coordinates, the centroid is the arithmetic mean, and
the identifier is the label of the current centroid. -/
def GroupInv (g : AreaGroup) : Prop :=
  (∀ r ∈ g.reports, r.coordinates.isSome) ∧
  g.sumLat = ((g.reports.filterMap fun r => r.coordinates).map Prod.fst).sum ∧
  g.sumLng = ((g.reports.filterMap fun r => r.coordinates).map Prod.snd).sum ∧
  g.centroid = (g.sumLat / g.reports.length, g.sumLng / g.reports.length) ∧
  g.identifier = clusterLabel g.centroid

/-!
## Helper lemmas
-/

/-- When no report fires the recency override, the scan returns nothing. -/
lemma overrideSeverity_eq_none (now : ℚ) (reports : List UserReport)
    (h : ∀ r ∈ reports, ¬ firesOverride now r) :
    overrideSeverity now reports = none := by
  induction reports with
  | nil => rfl
  | cons r rs ih =>
    have hr := h r (List.mem_cons_self r rs)
    have h1 : ¬(r.severity = .critical ∧ ageHours now r.timestamp < 6) :=
      fun hc => hr (Or.inl hc)
    have h2 : ¬(r.severity = .high ∧ ageHours now r.timestamp < 12) :=
      fun hc => hr (Or.inr (Or.inl hc))
    have h3 : ¬(r.severity = .medium ∧ ageHours now r.timestamp < 24) :=
      fun hc => hr (Or.inr (Or.inr hc))
    show (if _ then _ else if _ then _ else if _ then _ else overrideSeverity now rs) = none
    rw [if_neg h1, if_neg h2, if_neg h3]
    exact ih fun x hx => h x (List.mem_cons_of_mem _ hx)

/-- The scan skips a prefix in which no report fires the override. -/
lemma overrideSeverity_append (now : ℚ) (pre rest : List UserReport)
    (h : ∀ r ∈ pre, ¬ firesOverride now r) :
    overrideSeverity now (pre ++ rest) = overrideSeverity now rest := by
  induction pre with
  | nil => rfl
  | cons r rs ih =>
    have hr := h r (List.mem_cons_self r rs)
    have h1 : ¬(r.severity = .critical ∧ ageHours now r.timestamp < 6) :=
      fun hc => hr (Or.inl hc)
    have h2 : ¬(r.severity = .high ∧ ageHours now r.timestamp < 12) :=
      fun hc => hr (Or.inr (Or.inl hc))
    have h3 : ¬(r.severity = .medium ∧ ageHours now r.timestamp < 24) :=
      fun hc => hr (Or.inr (Or.inr hc))
    show (if _ then _ else if _ then _ else if _ then _
      else overrideSeverity now (rs ++ rest)) = _
    rw [if_neg h1, if_neg h2, if_neg h3]
    exact ih fun x hx => h x (List.mem_cons_of_mem _ hx)

/-!
## C3 — score thresholds when no override fires
-/

/-- **C3.** For every report group in which no recency override fires,
`assignSeverityLevel` returns `critical` iff the score is ≥ 12, `high` iff
the score is in `[6, 12)`, `medium` iff the score is in `[3, 6)`, and
`low` otherwise (in particular score 10 gives `high`, 12 gives `critical`,
5.9 gives `medium` and 2.9 gives `low`). -/
theorem assignSeverityLevel_score_thresholds (score : ℝ) (reports : List UserReport)
    (now : ℚ) (h : ∀ r ∈ reports, ¬ firesOverride now r) :
    (assignSeverityLevel score reports now = .critical ↔ 12 ≤ score) ∧
    (assignSeverityLevel score reports now = .high ↔ 6 ≤ score ∧ score < 12) ∧
    (assignSeverityLevel score reports now = .medium ↔ 3 ≤ score ∧ score < 6) ∧
    (assignSeverityLevel score reports now = .low ↔ score < 3) := by
  have hnone := overrideSeverity_eq_none now reports h
  unfold assignSeverityLevel
  rw [hnone]
  split_ifs with h1 h2 h3
  · exact ⟨by simp [h1], by simp; intro _; linarith, by simp; intro _; linarith,
      by simp; linarith⟩
  · refine ⟨by simp [h1], ?_, by simp; intro _; linarith, by simp; linarith⟩
    simp only [true_iff]
    exact ⟨h2, not_le.mp h1⟩
  · refine ⟨by simp [h1], by simp [h2], ?_, ?_⟩
    · simp only [true_iff]
      exact ⟨h3, not_le.mp h2⟩
    · simp only [false_iff]
      exact not_lt.mpr h3
  · refine ⟨by simp [h1], by simp [h2], by simp [h3], ?_⟩
    simp only [true_iff]
    exact not_le.mp h3

/-- Witness for C3 at score 10 with the empty group. -/
theorem assignSeverityLevel_score_thresholds_witness :
    (∀ r ∈ ([] : List UserReport), ¬ firesOverride 0 r) ∧
    ((assignSeverityLevel 10 [] 0 = .critical ↔ (12 : ℝ) ≤ 10) ∧
     (assignSeverityLevel 10 [] 0 = .high ↔ (6 : ℝ) ≤ 10 ∧ (10 : ℝ) < 12) ∧
     (assignSeverityLevel 10 [] 0 = .medium ↔ (3 : ℝ) ≤ 10 ∧ (10 : ℝ) < 6) ∧
     (assignSeverityLevel 10 [] 0 = .low ↔ (10 : ℝ) < 3)) :=
  ⟨by simp, assignSeverityLevel_score_thresholds 10 [] 0 (by simp)⟩

/-!
## C1 — a recent critical report and the override scan
-/

/-- **C1, counterexample.** A group holding a critical report of age 1 h
does *not* always classify as `critical`: when a `high` report of age 1 h
precedes it in input order, the scan returns `high` on the first match.
Input: score 0, reports `[high (age 1 h), critical (age 1 h)]`, now = 0. -/
theorem criticalOverride_counterexample :
    ({ severity := .critical, timestamp := -3600000 } : UserReport).severity
        = .critical ∧
    ageHours 0 ({ severity := .critical, timestamp := -3600000 } : UserReport).timestamp
        = 1 ∧
    assignSeverityLevel 0
      [{ severity := .high, timestamp := -3600000 },
       { severity := .critical, timestamp := -3600000 }] 0 = .high ∧
    AlertSeverity.high ≠ AlertSeverity.critical := by
  refine ⟨rfl, by norm_num [ageHours], ?_, by decide⟩
  have h1 : ¬(({ severity := .high, timestamp := -3600000 } : UserReport).severity
      = AlertSeverity.critical ∧
      ageHours 0 ({ severity := .high, timestamp := -3600000 } : UserReport).timestamp < 6) := by
    rintro ⟨hc, -⟩; cases hc
  have h2 : ({ severity := .high, timestamp := -3600000 } : UserReport).severity
      = AlertSeverity.high ∧
      ageHours 0 ({ severity := .high, timestamp := -3600000 } : UserReport).timestamp < 12 :=
    ⟨rfl, by norm_num [ageHours]⟩
  have : overrideSeverity 0
      [{ severity := .high, timestamp := -3600000 },
       { severity := .critical, timestamp := -3600000 }] = some .high := by
    show (if _ then _ else if _ then _ else if _ then _ else _) = _
    rw [if_neg h1, if_pos h2]
  unfold assignSeverityLevel
  rw [this]

/-- **C1, amended.** A report group containing a critical report of age
1 h classifies as `critical` provided no *earlier* report in input order
fires a recency override of its own; the result does not depend on the
score or on the reports after it.  (The unamended claim fails because the
override scan returns on the first firing report in input order, so an
earlier firing `high` or `medium` report wins — spec §9 documents this.) -/
theorem criticalOverride_of_no_earlier_override (score : ℝ) (now : ℚ)
    (pre post : List UserReport) (r : UserReport)
    (hsev : r.severity = .critical)
    (hage : ageHours now r.timestamp = 1)
    (hpre : ∀ r' ∈ pre, ¬ firesOverride now r') :
    assignSeverityLevel score (pre ++ r :: post) now = .critical := by
  have hfire : overrideSeverity now (r :: post) = some .critical := by
    show (if _ then _ else _) = _
    rw [if_pos ⟨hsev, by rw [hage]; norm_num⟩]
  unfold assignSeverityLevel
  rw [overrideSeverity_append now pre (r :: post) hpre, hfire]

/-- Witness for the amended C1: a lone critical report of age 1 h. -/
theorem criticalOverride_of_no_earlier_override_witness :
    (({ severity := .critical, timestamp := -3600000 } : UserReport).severity
        = .critical ∧
      ageHours 0 ({ severity := .critical, timestamp := -3600000 } : UserReport).timestamp
        = 1 ∧
      (∀ r' ∈ ([] : List UserReport), ¬ firesOverride 0 r')) ∧
    assignSeverityLevel 0
      ([] ++ ({ severity := .critical, timestamp := -3600000 } : UserReport) :: []) 0
      = .critical :=
  ⟨⟨rfl, by norm_num [ageHours], by simp⟩,
    criticalOverride_of_no_earlier_override 0 0 [] [] _ rfl (by norm_num [ageHours])
      (by simp)⟩

/-!
## C8 — query-parameter clamping at the orchestration boundary
-/

/-- **C8, counterexample.** A non-numeric query parameter defeats the
clamps: `parseInt('abc')` is `NaN` (`none` in this model), both clamp
comparisons are false on `NaN`, and the effective value is `NaN` — not a
number in `[1, 720]` (resp. `[1, 100]`). -/
theorem clampedParams_counterexample :
    effectiveTimeWindowHours (some "abc") = none ∧
    effectiveLimit (some "abc") = none ∧
    (¬ ∃ v : ℤ, effectiveTimeWindowHours (some "abc") = some v ∧ 1 ≤ v ∧ v ≤ 720) ∧
    (¬ ∃ v : ℤ, effectiveLimit (some "abc") = some v ∧ 1 ≤ v ∧ v ≤ 100) := by
  refine ⟨rfl, rfl, ?_, ?_⟩
  · rintro ⟨v, hv, -⟩
    rw [show effectiveTimeWindowHours (some "abc") = none from rfl] at hv
    cases hv
  · rintro ⟨v, hv, -⟩
    rw [show effectiveLimit (some "abc") = none from rfl] at hv
    cases hv

/-- **C8, amended.** Whenever the handler's `parseInt` produces a number —
in particular for an absent, empty, or numeric parameter — the effective
`timeWindowHours` lies in `[1, 720]` and the effective `limit` lies in
`[1, 100]`.  (The unamended claim fails because a present non-numeric
parameter parses to `NaN`, which bypasses both clamp comparisons.) -/
theorem clampedParams_in_range (rawT rawL : Option String) (v w : ℤ)
    (ht : effectiveTimeWindowHours rawT = some v)
    (hl : effectiveLimit rawL = some w) :
    (1 ≤ v ∧ v ≤ 720) ∧ (1 ≤ w ∧ w ≤ 100) := by
  constructor
  · unfold effectiveTimeWindowHours at ht
    rcases hp : parseIntJS (jsOrDefault rawT "168") with - | u <;> rw [hp] at ht
    · exact absurd ht (by simp)
    · simp only [Option.some.injEq] at ht
      subst ht
      split_ifs <;> omega
  · unfold effectiveLimit at hl
    rcases hp : parseIntJS (jsOrDefault rawL "50") with - | u <;> rw [hp] at hl
    · exact absurd hl (by simp)
    · simp only [Option.some.injEq] at hl
      subst hl
      split_ifs <;> omega

/-- Witness for the amended C8: absent parameters give the defaults 168
and 50, which are within the claimed ranges. -/
theorem clampedParams_in_range_witness :
    (effectiveTimeWindowHours none = some 168 ∧ effectiveLimit none = some 50) ∧
    ((1 ≤ (168 : ℤ) ∧ (168 : ℤ) ≤ 720) ∧ (1 ≤ (50 : ℤ) ∧ (50 : ℤ) ≤ 100)) :=
  ⟨⟨rfl, rfl⟩, clampedParams_in_range none none 168 50 rfl rfl⟩

/-!
## C5 — non-finite coordinates are not filtered out
-/

/-- `NaN` absorbs on the left of addition. -/
lemma JSNum.nan_add (x : JSNum) : JSNum.add .nan x = .nan := by
  cases x <;> rfl

/-- `NaN` absorbs on the right of addition. -/
lemma JSNum.add_nan (x : JSNum) : JSNum.add x .nan = .nan := by
  cases x <;> rfl

/-- `NaN` absorbs on the left of division. -/
lemma JSNum.nan_div (x : JSNum) : JSNum.div .nan x = .nan := by
  cases x <;> rfl

/-- Once the latitude accumulator of `calculateCentroidJs` is `NaN`, it
stays `NaN`. -/
lemma foldJs_nan_stays (l : List UserReportJs) (init : JSNum × JSNum)
    (h : init.1 = .nan) :
    (l.foldl
      (fun s r =>
        match r.coordinates with
        | some c => (s.1.add c.1, s.2.add c.2)
        | none => s)
      init).1 = .nan := by
  induction l generalizing init with
  | nil => exact h
  | cons a t ih =>
    rcases hc : a.coordinates with - | c <;> simp only [List.foldl_cons, hc]
    · exact ih init h
    · exact ih _ (by rw [h]; exact JSNum.nan_add c.1)

/-- A member with a present `NaN` latitude drives the latitude accumulator
of `calculateCentroidJs` to `NaN`. -/
lemma foldJs_nan_of_mem (l : List UserReportJs) (r : UserReportJs) (c : JSNum × JSNum)
    (hr : r ∈ l) (hc : r.coordinates = some c) (h1 : c.1 = .nan) (init : JSNum × JSNum) :
    (l.foldl
      (fun s r =>
        match r.coordinates with
        | some c => (s.1.add c.1, s.2.add c.2)
        | none => s)
      init).1 = .nan := by
  induction l generalizing init with
  | nil => cases hr
  | cons a t ih =>
    rcases List.mem_cons.mp hr with rfl | hmem
    · simp only [List.foldl_cons, hc, h1]
      exact foldJs_nan_stays t _ (JSNum.add_nan _)
    · rcases ha : a.coordinates with - | d <;> simp only [List.foldl_cons, ha]
      · exact ih hmem init
      · exact ih hmem _

/-- **C5, counterexample.** `calculateCentroid` does *not* treat a
non-finite latitude/longitude as absent: a report whose coordinate pair is
`(NaN, NaN)` passes the validity filter (which tests only presence and
length), and the returned centroid is `(NaN, NaN)` rather than the
empty-input fallback. -/
theorem nonfiniteCentroid_counterexample :
    (⟨some (.nan, .nan)⟩ : UserReportJs) ∈
      ([(⟨some (.nan, .nan)⟩ : UserReportJs)].filter fun r => r.coordinates.isSome) ∧
    calculateCentroidJs [⟨some (.nan, .nan)⟩] = (.nan, .nan) ∧
    calculateCentroidJs [] = (.num 12.8797, .num 121.774) ∧
    ((.nan, .nan) : JSNum × JSNum) ≠ (.num 12.8797, .num 121.774) :=
  ⟨List.mem_filter.mpr ⟨List.mem_singleton_self _, rfl⟩, rfl, rfl,
    fun h => JSNum.noConfusion (congrArg Prod.fst h)⟩

/-- **C5, amended.** The spatial validity filter excludes exactly the
reports whose coordinate pair is absent; it performs no finiteness check,
so a report with a present non-finite latitude is kept and `NaN`
propagates into the latitude of the returned centroid. -/
theorem centroid_keeps_nonfinite (reports : List UserReportJs) (r : UserReportJs)
    (c : JSNum × JSNum) (hr : r ∈ reports) (hc : r.coordinates = some c)
    (h1 : c.1 = .nan) :
    r ∈ (reports.filter fun r => r.coordinates.isSome) ∧
    (calculateCentroidJs reports).1 = .nan := by
  have hmem : r ∈ (reports.filter fun r => r.coordinates.isSome) :=
    List.mem_filter.mpr ⟨hr, by rw [hc]; rfl⟩
  refine ⟨hmem, ?_⟩
  have hne : ¬((reports.filter fun r => r.coordinates.isSome).isEmpty = true) := by
    intro he
    cases hfe : reports.filter fun r => r.coordinates.isSome with
    | nil => rw [hfe] at hmem; cases hmem
    | cons a t => rw [hfe] at he; cases he
  have hfold := foldJs_nan_of_mem (reports.filter fun r => r.coordinates.isSome) r c
    hmem hc h1 (.num 0, .num 0)
  simp only [calculateCentroidJs]
  rw [if_neg hne, hfold]
  dsimp only
  exact JSNum.nan_div _

/-- Witness for the amended C5 at a single `(NaN, NaN)` report. -/
theorem centroid_keeps_nonfinite_witness :
    ((⟨some (.nan, .nan)⟩ : UserReportJs) ∈ [(⟨some (.nan, .nan)⟩ : UserReportJs)] ∧
      (⟨some (.nan, .nan)⟩ : UserReportJs).coordinates = some (.nan, .nan) ∧
      ((.nan, .nan) : JSNum × JSNum).1 = .nan) ∧
    ((⟨some (.nan, .nan)⟩ : UserReportJs) ∈
        ([(⟨some (.nan, .nan)⟩ : UserReportJs)].filter fun r => r.coordinates.isSome) ∧
      (calculateCentroidJs [⟨some (.nan, .nan)⟩]).1 = .nan) :=
  ⟨⟨List.mem_singleton_self _, rfl, rfl⟩,
    centroid_keeps_nonfinite [⟨some (.nan, .nan)⟩] _ _
      (List.mem_singleton_self _) rfl rfl⟩

/-!
## C10 — the handler recomputes severities before ranking
-/

/-- **C10.** The area-severity handler does not rank the stored
severities: it maps every fetched report to a copy whose severity is
`calculateSeverityForLocation` over the full fetched set at the report's
own coordinates (all other fields unchanged), and feeds those copies —
truncated to the limit after ranking — into `calculateAreaSeverity`. -/
theorem handler_recomputes_severities (baseReports : List UserReport) (now w : ℚ)
    (limit : ℕ) :
    (applyNeighborhoodSeverity baseReports now).map UserReport.severity
      = baseReports.map
          (fun r => calculateSeverityForLocation baseReports r.coordinates now) ∧
    (applyNeighborhoodSeverity baseReports now).map
        (fun r => { r with severity := AlertSeverity.low })
      = baseReports.map (fun r => { r with severity := AlertSeverity.low }) ∧
    handlerRankings baseReports now w limit
      = (calculateAreaSeverity (applyNeighborhoodSeverity baseReports now) now w).take
          limit := by
  refine ⟨?_, ?_, rfl⟩ <;> simp [applyNeighborhoodSeverity, Function.comp]

/-!
## C6 — the point-severity resolver
-/

/-- The haversine distance from a point to itself is 0 (both angle
differences vanish, so `s = 0`, `√s = 0`, `asin 0 = 0`). -/
lemma haversineMeters_self (a : ℚ × ℚ) : haversineMeters a a = 0 := by
  simp [haversineMeters, toRad]

/-- **C6.** `calculateSeverityForLocation` filters the reports to exactly
those with a coordinate pair within 2500 m haversine distance of the
candidate; an empty neighbourhood returns `low` (never an error), and a
nonempty one returns `assignSeverityLevel` of the score computed over
exactly that neighbourhood. -/
theorem resolver_neighborhood (reports : List UserReport) (c : ℚ × ℚ) (now : ℚ) :
    (∀ r, r ∈ nearbyReports reports c 2500 ↔
        r ∈ reports ∧ ∃ rc, r.coordinates = some rc ∧ haversineMeters c rc ≤ 2500) ∧
    (nearbyReports reports c 2500 = [] →
        calculateSeverityForLocation reports (some c) now = .low) ∧
    (nearbyReports reports c 2500 ≠ [] →
        calculateSeverityForLocation reports (some c) now
          = assignSeverityLevel (calculateSeverityScore (nearbyReports reports c 2500) now)
              (nearbyReports reports c 2500) now) := by
  refine ⟨?_, ?_, ?_⟩
  · intro r
    rw [nearbyReports, List.mem_filter]
    constructor
    · rintro ⟨hr, hp⟩
      refine ⟨hr, ?_⟩
      rcases hco : r.coordinates with - | rc
      · rw [hco] at hp; cases hp
      · rw [hco] at hp; exact ⟨rc, rfl, of_decide_eq_true hp⟩
    · rintro ⟨hr, rc, hco, hd⟩
      exact ⟨hr, by rw [hco]; exact decide_eq_true hd⟩
  · intro he
    simp only [calculateSeverityForLocation]
    rw [he]
    rfl
  · intro hne
    have hb : ¬((nearbyReports reports c 2500).isEmpty = true) := by
      intro hb
      cases hfe : nearbyReports reports c 2500 with
      | nil => exact hne hfe
      | cons a t => rw [hfe] at hb; cases hb
    simp only [calculateSeverityForLocation]
    rw [if_neg hb]

/-- Witness for C6: a single report at the candidate's own location is
within radius (distance 0), so the resolver classifies over it. -/
theorem resolver_neighborhood_witness :
    nearbyReports [{ severity := .low, timestamp := 0, coordinates := some (0, 0) }]
        (0, 0) 2500 ≠ [] ∧
    calculateSeverityForLocation
        [{ severity := .low, timestamp := 0, coordinates := some (0, 0) }] (some (0, 0)) 0
      = assignSeverityLevel
          (calculateSeverityScore
            (nearbyReports [{ severity := .low, timestamp := 0, coordinates := some (0, 0) }]
              (0, 0) 2500) 0)
          (nearbyReports [{ severity := .low, timestamp := 0, coordinates := some (0, 0) }]
            (0, 0) 2500) 0 := by
  have hfull : nearbyReports
      [{ severity := .low, timestamp := 0, coordinates := some (0, 0) }] (0, 0) 2500
      = [{ severity := .low, timestamp := 0, coordinates := some (0, 0) }] := by
    norm_num [nearbyReports, List.filter_cons, haversineMeters_self]
  have hne : nearbyReports
      [{ severity := .low, timestamp := 0, coordinates := some (0, 0) }] (0, 0) 2500 ≠ [] := by
    rw [hfull]
    exact List.cons_ne_nil _ _
  exact ⟨hne,
    (resolver_neighborhood [{ severity := .low, timestamp := 0, coordinates := some (0, 0) }]
      (0, 0) 0).2.2 hne⟩

/-!
## C2 — the clustering pass refines its specification
-/

/-- When every element of a list has a present coordinate pair, the
extracted coordinate list has the same length. -/
lemma length_filterMap_coords (l : List UserReport)
    (h : ∀ r ∈ l, r.coordinates.isSome) :
    (l.filterMap fun r => r.coordinates).length = l.length := by
  induction l with
  | nil => rfl
  | cons a t ih =>
    rcases ha : a.coordinates with - | c
    · have := h a (List.mem_cons_self a t)
      rw [ha] at this
      cases this
    · simp [List.filterMap_cons, ha,
        ih fun x hx => h x (List.mem_cons_of_mem _ hx)]

/-- A fresh singleton group satisfies the clustering invariant. -/
lemma groupInv_newGroup (r : UserReport) (c : ℚ × ℚ) (hc : r.coordinates = some c) :
    GroupInv (newGroup r c) := by
  refine ⟨?_, ?_, ?_, ?_, rfl⟩
  · intro x hx
    rw [show (newGroup r c).reports = [r] from rfl, List.mem_singleton] at hx
    subst hx
    rw [hc]
    rfl
  · simp [newGroup, List.filterMap_cons, hc]
  · simp [newGroup, List.filterMap_cons, hc]
  · simp [newGroup]

/-- Appending a report with coordinates `c` preserves the clustering
invariant. -/
lemma groupInv_addToGroup (g : AreaGroup) (r : UserReport) (c : ℚ × ℚ)
    (hg : GroupInv g) (hc : r.coordinates = some c) :
    GroupInv (addToGroup g r c) := by
  obtain ⟨hall, hlat, hlng, -, -⟩ := hg
  refine ⟨?_, ?_, ?_, rfl, rfl⟩
  · intro x hx
    rcases List.mem_append.mp hx with hx | hx
    · exact hall x hx
    · rw [List.mem_singleton] at hx
      subst hx
      rw [hc]
      rfl
  · simp [addToGroup, List.filterMap_append, List.filterMap_cons, hc, hlat]
  · simp [addToGroup, List.filterMap_append, List.filterMap_cons, hc, hlng]

/-- For a group satisfying the invariant, the incrementally maintained
centroid of the updated group is the arithmetic mean of the updated
member list — the quantity the spec's wording prescribes. -/
lemma specCentroid_addToGroup (g : AreaGroup) (r : UserReport) (c : ℚ × ℚ)
    (hg : GroupInv g) (hc : r.coordinates = some c) :
    specCentroid (g.reports ++ [r]) = (addToGroup g r c).centroid := by
  obtain ⟨hall, hlat, hlng, -, -⟩ := hg
  have hlen := length_filterMap_coords g.reports hall
  simp only [specCentroid, addToGroup, List.filterMap_append, List.filterMap_cons, hc,
    List.filterMap_nil, List.map_append, List.sum_append, List.length_append,
    List.length_cons, List.length_nil]
  rw [hlen, ← hlat, ← hlng]
  simp

/-- One step of the clustering loop agrees with the spec's wording and
preserves the invariant. -/
lemma insertReport_refines (r : UserReport) (c : ℚ × ℚ) (hc : r.coordinates = some c)
    (groups : List AreaGroup) (hinv : ∀ g ∈ groups, GroupInv g) :
    (insertReport r c groups).map AreaGroup.toSpec
        = specInsert r c (groups.map AreaGroup.toSpec) ∧
      ∀ g' ∈ insertReport r c groups, GroupInv g' := by
  induction groups with
  | nil =>
    refine ⟨rfl, ?_⟩
    intro g' hg'
    rw [show insertReport r c [] = [newGroup r c] from rfl, List.mem_singleton] at hg'
    subst hg'
    exact groupInv_newGroup r c hc
  | cons g gs ih =>
    have hg := hinv g (List.mem_cons_self g gs)
    have hgs : ∀ x ∈ gs, GroupInv x := fun x hx => hinv x (List.mem_cons_of_mem _ hx)
    by_cases hd : haversineMeters c g.centroid ≤ 2500
    · constructor
      · simp only [insertReport, if_pos hd, List.map_cons, specInsert]
        rw [if_pos (show haversineMeters c g.toSpec.centroid ≤ 2500 from hd)]
        refine congrArg₂ _ ?_ rfl
        have hcen := specCentroid_addToGroup g r c hg hc
        rw [show g.toSpec.reports = g.reports from rfl, hcen]
        rfl
      · intro g' hg'
        simp only [insertReport, if_pos hd] at hg'
        rcases List.mem_cons.mp hg' with rfl | hmem
        · exact groupInv_addToGroup g r c hg hc
        · exact hgs g' hmem
    · obtain ⟨heq, hrest⟩ := ih hgs
      constructor
      · simp only [insertReport, if_neg hd, List.map_cons, specInsert]
        rw [if_neg (show ¬haversineMeters c g.toSpec.centroid ≤ 2500 from hd)]
        rw [heq]
      · intro g' hg'
        simp only [insertReport, if_neg hd] at hg'
        rcases List.mem_cons.mp hg' with rfl | hmem
        · exact hg
        · exact hrest g' hmem

/-- The whole clustering fold agrees with the spec's wording and leaves
every produced group satisfying the invariant. -/
lemma groupReportsByArea_refines_aux (reports : List UserReport) :
    ∀ (groups : List AreaGroup), (∀ g ∈ groups, GroupInv g) →
      ((reports.foldl
          (fun groups report =>
            match report.coordinates with
            | none => groups
            | some c => insertReport report c groups)
          groups).map AreaGroup.toSpec
        = reports.foldl
            (fun clusters report =>
              match report.coordinates with
              | none => clusters
              | some c => specInsert report c clusters)
            (groups.map AreaGroup.toSpec)) ∧
      ∀ g ∈ reports.foldl
          (fun groups report =>
            match report.coordinates with
            | none => groups
            | some c => insertReport report c groups)
          groups, GroupInv g := by
  induction reports with
  | nil => exact fun groups h => ⟨rfl, h⟩
  | cons a t ih =>
    intro groups h
    rcases ha : a.coordinates with - | c <;> simp only [List.foldl_cons, ha]
    · exact ih groups h
    · obtain ⟨heq, hinv⟩ := insertReport_refines a c ha groups h
      obtain ⟨heq2, hinv2⟩ := ih _ hinv
      exact ⟨by rw [heq2, heq], hinv2⟩

/-- Every group produced by `groupReportsByArea` satisfies the clustering
invariant. -/
lemma groupReportsByArea_inv (reports : List UserReport) :
    ∀ g ∈ groupReportsByArea reports, GroupInv g :=
  (groupReportsByArea_refines_aux reports [] (fun g hg => absurd hg
    (List.not_mem_nil g))).2

/-- **C2.** `groupReportsByArea` implements exactly the specified
algorithm: processing reports in arrival order, a report with a valid
coordinate pair joins the first cluster (in creation order) whose current
centroid is within 2500 m haversine distance, that cluster's centroid
becomes the arithmetic mean of its members and its identifier is relabeled
from the new centroid; with no cluster in radius a new singleton cluster
is created at the report's coordinates.  Formally, the source function
viewed through `AreaGroup.toSpec` coincides with the algorithm transcribed
from the spec's wording (`specGroupReportsByArea`). -/
theorem groupReportsByArea_matches_spec (reports : List UserReport) :
    (groupReportsByArea reports).map AreaGroup.toSpec = specGroupReportsByArea reports :=
  (groupReportsByArea_refines_aux reports [] (fun g hg => absurd hg
    (List.not_mem_nil g))).1

/-!
## C7 — clusters partition the valid reports
-/

/-- Inserting a report adds exactly that report (as one occurrence) to the
combined membership of the groups. -/
lemma insertReport_flatMap_perm (r : UserReport) (c : ℚ × ℚ) (groups : List AreaGroup) :
    ((insertReport r c groups).flatMap AreaGroup.reports).Perm
      (r :: groups.flatMap AreaGroup.reports) := by
  induction groups with
  | nil => exact List.Perm.refl _
  | cons g gs ih =>
    by_cases hd : haversineMeters c g.centroid ≤ 2500
    · simp only [insertReport, if_pos hd, List.flatMap_cons]
      rw [show (addToGroup g r c).reports = g.reports ++ [r] from rfl,
        List.append_assoc, List.singleton_append]
      exact List.perm_middle
    · simp only [insertReport, if_neg hd, List.flatMap_cons]
      exact (ih.append_left g.reports).trans List.perm_middle

/-- The clustering fold distributes the coordinate-bearing reports over
the groups, one occurrence each. -/
lemma groupReportsByArea_flatMap_perm_aux (reports : List UserReport) :
    ∀ (groups : List AreaGroup),
      ((reports.foldl
          (fun groups report =>
            match report.coordinates with
            | none => groups
            | some c => insertReport report c groups)
          groups).flatMap AreaGroup.reports).Perm
        (groups.flatMap AreaGroup.reports
          ++ reports.filter fun r => r.coordinates.isSome) := by
  induction reports with
  | nil => intro groups; simp
  | cons a t ih =>
    intro groups
    rcases ha : a.coordinates with - | c <;>
      simp only [List.foldl_cons, ha, List.filter_cons]
    · rw [if_neg (by simp)]
      exact ih groups
    · rw [if_pos (show ((some c : Option (ℚ × ℚ)).isSome : Bool) = true from rfl)]
      refine (ih (insertReport a c groups)).trans ?_
      refine ((insertReport_flatMap_perm a c groups).append_right _).trans ?_
      rw [List.cons_append]
      exact List.perm_middle.symm

/-- Occurrences of one report across all groups, as a sum. -/
lemma count_flatMap_groups (r : UserReport) (gs : List AreaGroup) :
    (gs.flatMap AreaGroup.reports).count r = (gs.map fun g => g.reports.count r).sum := by
  induction gs with
  | nil => rfl
  | cons g t ih => simp [List.flatMap_cons, List.count_append, ih]

/-- A list of naturals summing to 1 has exactly one nonzero entry. -/
lemma sum_one_countP (l : List ℕ) (h : l.sum = 1) :
    (l.countP fun n => decide (0 < n)) = 1 := by
  induction l with
  | nil => exact absurd h (by simp)
  | cons a t ih =>
    rw [List.sum_cons] at h
    cases a with
    | zero =>
      rw [List.countP_cons]
      simp only [decide_eq_true_eq, Nat.lt_irrefl, if_false]
      exact ih (by omega)
    | succ n =>
      have ht : t.sum = 0 := by omega
      rw [List.countP_cons]
      have hz : t.countP (fun n => decide (0 < n)) = 0 := by
        rw [List.countP_eq_zero]
        intro x hx
        have hx0 : x = 0 :=
          Nat.le_zero.mp (ht ▸ List.single_le_sum (fun y _ => Nat.zero_le y) x hx)
        simp [hx0]
      rw [hz]
      simp

/-- **C7.** After one clustering run the clusters are disjoint: the
combined cluster membership is a permutation of the coordinate-bearing
input reports (so each occurrence lands in exactly one cluster), every
cluster member carries coordinates (a report lacking usable coordinates is
in no cluster), and a coordinate-bearing report occurring once in the
input belongs to exactly one cluster. -/
theorem clusters_partition (reports : List UserReport) :
    ((groupReportsByArea reports).flatMap AreaGroup.reports).Perm
        (reports.filter fun r => r.coordinates.isSome) ∧
    (∀ g ∈ groupReportsByArea reports, ∀ r ∈ g.reports, r.coordinates.isSome) ∧
    (∀ r : UserReport, r.coordinates.isSome → reports.count r = 1 →
        ((groupReportsByArea reports).countP fun g => decide (0 < g.reports.count r))
          = 1) := by
  have hperm : ((groupReportsByArea reports).flatMap AreaGroup.reports).Perm
      (reports.filter fun r => r.coordinates.isSome) := by
    have := groupReportsByArea_flatMap_perm_aux reports []
    simpa using this
  refine ⟨hperm, ?_, ?_⟩
  · intro g hg r hr
    exact (groupReportsByArea_inv reports g hg).1 r hr
  · intro r hsome hcount
    have h1 : ((groupReportsByArea reports).flatMap AreaGroup.reports).count r = 1 := by
      rw [hperm.count_eq,
        List.count_filter (p := fun x : UserReport => x.coordinates.isSome) hsome]
      exact hcount
    have h2 : ((groupReportsByArea reports).map fun g => g.reports.count r).sum = 1 := by
      rw [← count_flatMap_groups]
      exact h1
    have h3 := sum_one_countP _ h2
    rw [List.countP_map] at h3
    exact h3

/-!
## C4 — time-window filter, descending stable sort, truncation
-/

/-- The ranking comparator (descending by published score) is transitive. -/
lemma rankCmp_trans : ∀ (a b c : AreaSeverityRanking),
    (fun a b : AreaSeverityRanking => decide (b.score ≤ a.score)) a b →
    (fun a b : AreaSeverityRanking => decide (b.score ≤ a.score)) b c →
    (fun a b : AreaSeverityRanking => decide (b.score ≤ a.score)) a c :=
  fun _ _ _ hab hbc =>
    decide_eq_true (le_trans (of_decide_eq_true hbc) (of_decide_eq_true hab))

/-- The ranking comparator is total. -/
lemma rankCmp_total : ∀ (a b : AreaSeverityRanking),
    ((fun a b : AreaSeverityRanking => decide (b.score ≤ a.score)) a b
      || (fun a b : AreaSeverityRanking => decide (b.score ≤ a.score)) b a) = true := by
  intro a b
  rcases le_total b.score a.score with h | h <;> simp [h]

/-- **C4.** `calculateAreaSeverity` keeps exactly the input reports with
timestamp ≥ now − timeWindowHours (default 168 h); its output is sorted
non-increasingly by published score with a stable sort — the entries of
any one score value appear in cluster-discovery order — and the
caller-applied limit truncates the list without altering the relative
order of the surviving entries (the truncation is a sublist). -/
theorem calculateAreaSeverity_sorted (reports : List UserReport) (now w : ℚ) (n : ℕ) :
    (∀ r, r ∈ recentReports reports w now ↔
        r ∈ reports ∧ now - w * 3600000 ≤ r.timestamp) ∧
    calculateAreaSeverity reports now = calculateAreaSeverity reports now 168 ∧
    (calculateAreaSeverity reports now w).Pairwise
      (fun a b => b.score ≤ a.score) ∧
    (∀ s : ℝ,
        ((groupReportsByArea (recentReports reports w now)).map (mkRanking now)).filter
            (fun x => decide (x.score = s))
          = (calculateAreaSeverity reports now w).filter
              (fun x => decide (x.score = s))) ∧
    ((calculateAreaSeverity reports now w).take n).Sublist
      (calculateAreaSeverity reports now w) := by
  refine ⟨?_, rfl, ?_, ?_, List.take_sublist n _⟩
  · intro r
    simp only [recentReports, List.mem_filter, decide_eq_true_eq]
    constructor
    · rintro ⟨h1, h2⟩
      exact ⟨h1, by linarith⟩
    · rintro ⟨h1, h2⟩
      exact ⟨h1, by linarith⟩
  · simp only [calculateAreaSeverity]
    exact (List.sorted_mergeSort rankCmp_trans rankCmp_total _).imp
      fun h => of_decide_eq_true h
  · intro s
    simp only [calculateAreaSeverity]
    set L := (groupReportsByArea (recentReports reports w now)).map (mkRanking now)
      with hL
    set c := L.filter (fun x => decide (x.score = s)) with hc
    have hall : ∀ x ∈ c, x.score = s := by
      intro x hx
      exact of_decide_eq_true (List.mem_filter.mp hx).2
    have hcpair : c.Pairwise
        (fun a b : AreaSeverityRanking => decide (b.score ≤ a.score)) := by
      refine List.pairwise_of_forall_mem_list ?_
      intro a ha b hb
      rw [hall a ha, hall b hb]
      exact decide_eq_true le_rfl
    have hsub : c.Sublist
        (L.mergeSort fun a b => decide (b.score ≤ a.score)) :=
      List.sublist_mergeSort rankCmp_trans rankCmp_total hcpair (List.filter_sublist L)
    have hfsub : c.Sublist
        ((L.mergeSort fun a b => decide (b.score ≤ a.score)).filter
          (fun x => decide (x.score = s))) := by
      have := hsub.filter (fun x => decide (x.score = s))
      rwa [show c.filter (fun x => decide (x.score = s)) = c from
        List.filter_eq_self.mpr fun a ha => decide_eq_true (hall a ha)] at this
    have hperm : ((L.mergeSort fun a b => decide (b.score ≤ a.score)).filter
          (fun x => decide (x.score = s))).Perm c :=
      (List.mergeSort_perm L _).filter _
    exact hfsub.eq_of_length hperm.length_eq.symm

/-!
## C9 — published scores are two-decimal roundings
-/

/-- `Math.round` moves a value by at most `1/2`. -/
lemma jsRound_sub_le (y : ℝ) : |jsRound y - y| ≤ 1 / 2 := by
  rw [jsRound, abs_le]
  have h1 := Int.lt_floor_add_one (y + 1 / 2)
  have h2 := Int.floor_le (y + 1 / 2)
  constructor <;> push_cast <;> linarith

/-- Two-sided bounds for `500 · exp(−1/24)`, tight enough to settle the
rounding: the third-order Taylor bound from above on `exp(1/24)` and
`1 + x ≤ exp x` from below. -/
lemma exp_neg_inv24_bounds :
    479.5 ≤ 500 * Real.exp (-(1 : ℝ) / 24) ∧
      500 * Real.exp (-(1 : ℝ) / 24) < 480.5 := by
  have hneg : (-(1 : ℝ) / 24) = -(1 / 24 : ℝ) := by norm_num
  have hub : Real.exp ((1 : ℝ) / 24) ≤ 64855 / 62208 := by
    have hb := Real.exp_bound' (x := (1 : ℝ) / 24) (by norm_num) (by norm_num)
      (n := 3) (by norm_num)
    refine hb.trans (le_of_eq ?_)
    norm_num [Finset.sum_range_succ, Finset.sum_range_zero, Nat.factorial]
  have hlb : (25 / 24 : ℝ) ≤ Real.exp ((1 : ℝ) / 24) := by
    have := Real.add_one_le_exp ((1 : ℝ) / 24)
    linarith
  have hinv_lb : (64855 / 62208 : ℝ)⁻¹ ≤ (Real.exp ((1 : ℝ) / 24))⁻¹ :=
    inv_anti₀ (Real.exp_pos _) hub
  have hinv_ub : (Real.exp ((1 : ℝ) / 24))⁻¹ ≤ (25 / 24 : ℝ)⁻¹ :=
    inv_anti₀ (by norm_num) hlb
  rw [hneg, Real.exp_neg]
  constructor
  · have : (479.5 : ℝ) ≤ 500 * (64855 / 62208 : ℝ)⁻¹ := by norm_num
    nlinarith
  · have : 500 * (25 / 24 : ℝ)⁻¹ < 480.5 := by norm_num
    nlinarith

/-- **C9.** Every published ranking score is the exact cluster score
rounded to two decimal places — an integer multiple of 0.01 within 0.005
of the exact score — so the descending sort of `calculateAreaSeverity`
compares rounded scores; two exact scores differing by less than 0.005 can
round to the same published value (4.796 and 4.797 both publish as 4.8),
and the spec §8 end-to-end score `5·exp(−1/24) ≈ 4.796` is published
as 4.8. -/
theorem publishedScore_rounded (reports : List UserReport) (now w : ℚ) :
    (∀ entry ∈ calculateAreaSeverity reports now w,
        (∃ k : ℤ, entry.score = (k : ℝ) / 100) ∧
        ∃ g ∈ groupReportsByArea (recentReports reports w now),
            entry.score = jsRound (calculateSeverityScore g.reports now * 100) / 100 ∧
            |entry.score - calculateSeverityScore g.reports now| ≤ 1 / 200) ∧
    jsRound (5 * Real.exp (-(1 : ℝ) / 24) * 100) / 100 = 4.8 ∧
    ((4.796 : ℝ) ≠ 4.797 ∧ |(4.796 : ℝ) - 4.797| < 1 / 200 ∧
      jsRound ((4.796 : ℝ) * 100) / 100 = jsRound ((4.797 : ℝ) * 100) / 100) := by
  refine ⟨?_, ?_, by norm_num, ?_, ?_⟩
  · intro entry hmem
    simp only [calculateAreaSeverity, List.mem_mergeSort, List.mem_map] at hmem
    obtain ⟨g, hg, hge⟩ := hmem
    have hscore : entry.score
        = jsRound (calculateSeverityScore g.reports now * 100) / 100 := by
      rw [← hge]
      rfl
    refine ⟨⟨⌊calculateSeverityScore g.reports now * 100 + 1 / 2⌋, ?_⟩, g, hg, hscore, ?_⟩
    · rw [hscore, jsRound]
      push_cast
      ring
    · rw [hscore]
      have hb := jsRound_sub_le (calculateSeverityScore g.reports now * 100)
      rw [abs_le] at hb ⊢
      constructor <;> [linarith; linarith]
  · obtain ⟨hlo, hhi⟩ := exp_neg_inv24_bounds
    have hfl : ⌊5 * Real.exp (-(1 : ℝ) / 24) * 100 + 1 / 2⌋ = 480 := by
      rw [Int.floor_eq_iff]
      constructor <;> [nlinarith; nlinarith]
    rw [jsRound, hfl]
    norm_num
  · rw [abs_sub_lt_iff]
    constructor <;> norm_num
  · have h1 : ⌊(4.796 : ℝ) * 100 + 1 / 2⌋ = 480 := by
      rw [Int.floor_eq_iff]
      constructor <;> norm_num
    have h2 : ⌊(4.797 : ℝ) * 100 + 1 / 2⌋ = 480 := by
      rw [Int.floor_eq_iff]
      constructor <;> norm_num
    rw [jsRound, jsRound, h1, h2]

end WeatherDisaster
